import Mathlib

/-!
Verification of the "Trabalhos & QR" record-management app (`app.py`).

The development shallowly embeds the persistence layer (one SQLite table of
`trabalhos` rows, modelled as a list of records), the header-normalization
and import pipeline, the URL/QR addressing scheme, the admin gate, and the
list-view search filter.  Library calls made by the code (`pandas`,
Python `str` methods, the `re` engine used by `pandas.Series.str.contains`)
are embedded on the fragment the app exercises; each such definition's
doc comment states the fragment modelled.
-/

namespace SictQr

/-- A row of the `trabalhos` table (`CREATE TABLE` in `get_conn`):
`id TEXT PRIMARY KEY`, six further text columns, `painel INTEGER`,
`created_at TEXT`. -/
structure Trabalho where
  id : String
  aluno : String
  orientador : String
  areas : String
  titulo : String
  avaliador1 : String
  avaliador2 : String
  painel : Int
  created_at : String
deriving DecidableEq, Repr

/-- The table contents, in rowid (insertion) order. -/
abbrev DB := List Trabalho

/-- Embeds `insert_trabalho`: `INSERT INTO trabalhos ... VALUES (?,...,?)`.
A duplicate `id` violates the primary key and surfaces as a storage
error; otherwise the row is appended. -/
def insert_trabalho (row : Trabalho) (db : DB) : Except String DB :=
  if db.any (fun t => t.id == row.id) then
    Except.error "UNIQUE constraint failed: trabalhos.id"
  else
    Except.ok (db ++ [row])

/-- Embeds `update_trabalho`: `UPDATE trabalhos SET aluno=?, orientador=?, areas=?,
titulo=?, avaliador1=?, avaliador2=?, painel=? WHERE id=?`.  Every row whose
`id` matches gets the seven listed columns overwritten; `id` and
`created_at` are not in the SET list. -/
def update_trabalho (row : Trabalho) (db : DB) : DB :=
  db.map (fun t =>
    if t.id == row.id then
      { t with
        aluno := row.aluno, orientador := row.orientador, areas := row.areas,
        titulo := row.titulo, avaliador1 := row.avaliador1,
        avaliador2 := row.avaliador2, painel := row.painel }
    else t)

/-- Embeds `get_trabalho_by_id`: `SELECT * FROM trabalhos WHERE id=?` then
`fetchone()` — the first matching row in table order, or `None`. -/
def get_trabalho_by_id (id_ : String) (db : DB) : Option Trabalho :=
  db.find? (fun t => t.id == id_)

/-- Embeds `delete_trabalho`: `DELETE FROM trabalhos WHERE id=?`. -/
def delete_trabalho (id_ : String) (db : DB) : DB :=
  db.filter (fun t => !(t.id == id_))

/-- Code-point comparison of strings as lists of characters: SQLite's
BINARY collation compares UTF-8 bytes, which orders exactly by code point. -/
def lexLe : List Char → List Char → Bool
  | [], _ => true
  | _ :: _, [] => false
  | a :: as, b :: bs =>
    if a.toNat < b.toNat then true
    else if b.toNat < a.toNat then false
    else lexLe as bs

/-- The `ORDER BY painel, aluno` sort key of `list_trabalhos`:
`painel` ascending, ties broken by `aluno` ascending (BINARY collation). -/
def trabLe (a b : Trabalho) : Bool :=
  if a.painel < b.painel then true
  else if b.painel < a.painel then false
  else lexLe a.aluno.data b.aluno.data

/-- The sort order of `list_trabalhos` as a relation. -/
def trabRel (a b : Trabalho) : Prop := trabLe a b = true

instance : DecidableRel trabRel := fun a b => instDecidableEqBool (trabLe a b) true

/-- Embeds `list_trabalhos`: `SELECT * FROM trabalhos ORDER BY painel, aluno`. -/
def list_trabalhos (db : DB) : List Trabalho :=
  List.insertionSort trabRel db

/-- Python `str.lower` on the characters the app's header synonyms use:
ASCII letters `A`-`Z` and the Latin-1 uppercase block `À` (192) - `Þ` (222)
except `×` (215) map down by 32; every other character is unchanged. -/
def pyLower (c : Char) : Char :=
  if 65 ≤ c.toNat ∧ c.toNat ≤ 90 then Char.ofNat (c.toNat + 32)
  else if 192 ≤ c.toNat ∧ c.toNat ≤ 222 ∧ c.toNat ≠ 215 then Char.ofNat (c.toNat + 32)
  else c

/-- The whitespace characters removed by Python `str.strip()` (ASCII
fragment): tab through carriage return (9-13) and the space (32). -/
def isPyWs (c : Char) : Bool :=
  c.toNat == 32 || (decide (9 ≤ c.toNat) && decide (c.toNat ≤ 13))

/-- Drop leading and trailing whitespace from a character list. -/
def stripChars (l : List Char) : List Char :=
  ((l.dropWhile isPyWs).reverse.dropWhile isPyWs).reverse

/-- Python `str.strip()` on a string. -/
def pyStrip (s : String) : String := ⟨stripChars s.data⟩

/-- Python `str.lower()` on a string (character-wise `pyLower`). -/
def pyLowerStr (s : String) : String := ⟨s.data.map pyLower⟩

/-- The `mapping` dictionary of `normalize_header`, as an association
list in the source's entry order. -/
def headerMapping : List (String × String) :=
  [("aluno", "aluno"), ("aluno(a)", "aluno"), ("aluna", "aluno"),
   ("orientador", "orientador"),
   ("áreas", "areas"), ("areas", "areas"),
   ("título", "titulo"), ("titulo", "titulo"),
   ("avaliador 1", "avaliador1"), ("avaliador1", "avaliador1"),
   ("avaliador 2", "avaliador2"), ("avaliador2", "avaliador2"),
   ("nº do painel", "painel"), ("no do painel", "painel"),
   ("n do painel", "painel"),
   ("painel", "painel")]

/-- Embeds `normalize_header`: strip and lowercase the header, then replace it by
its canonical name when the `mapping` dictionary knows it
(`mapping.get(s, s)`), else leave the stripped-lowercased form. -/
def normalize_header (s : String) : String :=
  let t := pyLowerStr (pyStrip s)
  (headerMapping.lookup t).getD t

/-- The `required` list of `ensure_columns`: the seven canonical columns. -/
def requiredCols : List String :=
  ["aluno", "orientador", "areas", "titulo", "avaliador1", "avaliador2", "painel"]

/-- A pandas DataFrame for this app's purposes: a row count and labelled
columns in order, each column holding one value per row. -/
structure Df where
  nrows : Nat
  cols : List (String × List String)
deriving DecidableEq, Repr

/-- Embeds `df.columns = [normalize_header(c) for c in df.columns]`. -/
def normalizeDfCols (df : Df) : List (String × List String) :=
  df.cols.map (fun c => (normalize_header c.1, c.2))

/-- The `for col in required: if col not in df.columns: df[col] = ""` loop:
each canonical column absent from the frame is appended, filled with the
empty string for every row. -/
def addMissing (n : Nat) (cs : List (String × List String)) : List (String × List String) :=
  requiredCols.foldl
    (fun acc col =>
      if acc.any (fun c => c.1 == col) then acc
      else acc ++ [(col, List.replicate n "")])
    cs

/-- Embeds `ensure_columns`: normalize the headers, synthesize the missing
canonical columns, and project `df[required]` — pandas label selection,
which returns every column bearing a requested label, in label order. -/
def ensure_columns (df : Df) : Df :=
  ⟨df.nrows,
   requiredCols.flatMap
     (fun name => (addMissing df.nrows (normalizeDfCols df)).filter (fun c => c.1 == name))⟩

/-- Embeds the `(base_url or "").rstrip("/")` step of `build_detail_url`: remove every
trailing `/`. -/
def rstripSlashes (s : String) : String :=
  ⟨(s.data.reverse.dropWhile (fun c => c == '/')).reverse⟩

/-- Embeds `build_detail_url(base_url, rec_id)`: the stripped base followed by
the query suffix, per the f-string. -/
def build_detail_url (base_url rec_id : String) : String :=
  rstripSlashes base_url ++ "/?id=" ++ rec_id

/-- The gate of the sidebar: `is_admin = (ADMIN_PASS != "" and
typed_pass == ADMIN_PASS)`. -/
def is_admin (adminPass typed : String) : Bool :=
  adminPass != "" && typed == adminPass

/-- The tabs `st.tabs` renders: five when `is_admin`, else only the public
list tab. -/
def visibleTabs (adminPass typed : String) : List String :=
  if is_admin adminPass typed then
    ["Cadastrar", "Importar planilha", "Lista & QR", "Exportar", "Etiquetas p/ impressão"]
  else
    ["Lista & QR"]

/-- A spreadsheet cell as pandas hands it to the import loop: either a
missing value (`NaN`, for which `pd.notna` is false) or a textual value. -/
inductive Cell
  | na : Cell
  | str : String → Cell
deriving DecidableEq, Repr

/-- Embeds `pd.notna` on a cell. -/
def pdNotna : Cell → Bool
  | Cell.na => false
  | Cell.str _ => true

/-- Whether every character of the list is a decimal digit. -/
def allDigits (l : List Char) : Bool :=
  l.all (fun c => decide (48 ≤ c.toNat) && decide (c.toNat ≤ 57))

/-- Numeric value of a digit list, most significant first. -/
def digitsToNat (l : List Char) : Nat :=
  l.foldl (fun acc c => acc * 10 + (c.toNat - 48)) 0

/-- Embeds `pd.to_numeric(x, errors="coerce")` on a textual cell, integral
fragment: a (whitespace-padded, optionally signed) run of decimal digits
parses to its value; any other text coerces to `NaN`, returned as `none`. -/
def toNumericCoerce (s : String) : Option Int :=
  match stripChars s.data with
  | [] => none
  | '+' :: ds => if ds ≠ [] ∧ allDigits ds then some (digitsToNat ds) else none
  | '-' :: ds => if ds ≠ [] ∧ allDigits ds then some (-(digitsToNat ds : Int)) else none
  | ds => if allDigits ds then some (digitsToNat ds) else none

/-- The `painel` coercion of the import loop:
`int(pd.to_numeric(r["painel"], errors="coerce") if pd.notna(r["painel"]) else 0)`.
A missing cell yields `int(0) = 0`; a textual cell is passed through
`to_numeric`, and when that coerces to `NaN`, the outer `int()` raises
`ValueError`, modelled as the error branch. -/
def importPainel (c : Cell) : Except String Int :=
  if pdNotna c then
    match c with
    | Cell.na => Except.ok 0
    | Cell.str s =>
      match toNumericCoerce s with
      | some n => Except.ok n
      | none => Except.error "cannot convert float NaN to integer"
  else Except.ok 0

/-- One already-normalized spreadsheet row as the import loop reads it,
together with the `uuid4` and timestamp generated for it. -/
structure ImportRow where
  id : String
  aluno : String
  orientador : String
  areas : String
  titulo : String
  avaliador1 : String
  avaliador2 : String
  painel : Cell
  created_at : String
deriving DecidableEq, Repr

/-- The record the import loop builds from a row: text fields are
`str(...).strip()`-ed and `painel` goes through `importPainel`; a raised
`ValueError` propagates. -/
def buildImportRec (r : ImportRow) : Except String Trabalho :=
  match importPainel r.painel with
  | Except.error e => Except.error e
  | Except.ok p =>
    Except.ok
      { id := r.id, aluno := pyStrip r.aluno, orientador := pyStrip r.orientador,
        areas := pyStrip r.areas, titulo := pyStrip r.titulo,
        avaliador1 := pyStrip r.avaliador1, avaliador2 := pyStrip r.avaliador2,
        painel := p, created_at := r.created_at }

/-- The `for _, r in df.iterrows()` import loop: build and insert each row,
incrementing `count`.  An uncaught exception (from the `painel` coercion or
a storage error) stops the loop: the result records the rows inserted so
far, the count reached, and whether the batch ran to completion. -/
def runImport : List ImportRow → DB → Nat → DB × Nat × Bool
  | [], db, count => (db, count, true)
  | r :: rest, db, count =>
    match buildImportRec r with
    | Except.error _ => (db, count, false)
    | Except.ok rec_ =>
      match insert_trabalho rec_ db with
      | Except.error _ => (db, count, false)
      | Except.ok db' => runImport rest db' (count + 1)

/-- One row of the list-view DataFrame (`pd.read_sql_query`): the text
columns are nullable, a SQL `NULL` arriving as `NaN` (`none`). -/
structure ListRow where
  id : String
  aluno : Option String
  orientador : Option String
  areas : Option String
  titulo : Option String
  avaliador1 : Option String
  avaliador2 : Option String
  painel : Int
  created_at : String
deriving DecidableEq, Repr

/-- One atom of a Python regular expression, literal-and-dot fragment,
under `re.IGNORECASE`: `.` matches any character except a newline; any
other pattern character matches case-insensitively. -/
def reAtom (p c : Char) : Bool :=
  (p == '.' && !(c == '\n')) || pyLower p == pyLower c

/-- Whether the pattern matches at the start of the text
(literal-and-dot fragment of the `re` engine). -/
def reMatchHere : List Char → List Char → Bool
  | [], _ => true
  | _ :: _, [] => false
  | p :: ps, c :: cs => reAtom p c && reMatchHere ps cs

/-- Embeds `re.search`: whether the pattern matches at any position of the text. -/
def reSearch : List Char → List Char → Bool
  | p, [] => reMatchHere p []
  | p, c :: cs => reMatchHere p (c :: cs) || reSearch p cs

/-- Embeds `Series.str.contains(q, case=False, na=False)` on one cell: a missing
value never matches (`na=False`); otherwise `q` is a regular-expression
pattern searched case-insensitively in the cell. -/
def strContainsCI (q : String) (x : Option String) : Bool :=
  match x with
  | none => false
  | some s => reSearch q.data s.data

/-- The search mask of the list tab: `aluno`, `titulo`, `orientador` or
`areas` contains the query. -/
def rowMask (q : String) (r : ListRow) : Bool :=
  strContainsCI q r.aluno || strContainsCI q r.titulo ||
    strContainsCI q r.orientador || strContainsCI q r.areas

/-- The list-tab search: `if q: df = df[mask]` — an empty query leaves the
frame untouched, a non-empty one keeps exactly the masked rows. -/
def applySearch (q : String) (rows : List ListRow) : List ListRow :=
  if q = "" then rows else rows.filter (rowMask q)

/-- Exact prefix test on character lists (specification side). -/
def occursAt : List Char → List Char → Bool
  | [], _ => true
  | _ :: _, [] => false
  | a :: as, b :: bs => a == b && occursAt as bs

/-- Substring test on character lists (specification side). -/
def occursIn : List Char → List Char → Bool
  | q, [] => occursAt q []
  | q, c :: cs => occursAt q (c :: cs) || occursIn q cs

/-- Specification-side predicate: `q` occurs as a case-insensitive
substring of `s`. -/
def ciSubstr (q s : String) : Bool :=
  occursIn (q.data.map pyLower) (s.data.map pyLower)

/-- Case-insensitive substring test on a nullable cell; a missing value
never matches. -/
def ciSubstrOpt (q : String) : Option String → Bool
  | none => false
  | some s => ciSubstr q s

/-- Specification-side search predicate over a row: `q` is a
case-insensitive substring of at least one of the four searched fields. -/
def specRowMatch (q : String) (r : ListRow) : Bool :=
  ciSubstrOpt q r.aluno || ciSubstrOpt q r.titulo ||
    ciSubstrOpt q r.orientador || ciSubstrOpt q r.areas

/-- The metacharacters of Python regular expressions; a query free of them
is matched purely literally by `re.search`. -/
def isRegexMeta (c : Char) : Bool :=
  ['.', '^', '$', '*', '+', '?', '\x7b', '\x7d', '[', ']', '\\', '|', '(', ')'].contains c

/-- A well-formed import row (panel "2"). -/
def impRowA : ImportRow :=
  ⟨"u1", " Ana ", "O1", "Bio", "T1", "E1", "E2", Cell.str "2", "d1"⟩

/-- An import row whose `painel` cell is the non-numeric text "abc". -/
def impRowB : ImportRow :=
  ⟨"u2", "Bea", "O2", "Mat", "T2", "E3", "E4", Cell.str "abc", "d2"⟩

/-- A well-formed import row (panel "3") placed after the malformed one. -/
def impRowC : ImportRow :=
  ⟨"u3", "Caio", "O3", "Fis", "T3", "E5", "E6", Cell.str "3", "d3"⟩

/-- The record the import loop stores for `impRowA`. -/
def importedRecA : Trabalho :=
  ⟨"u1", "Ana", "O1", "Bio", "T1", "E1", "E2", 2, "d1"⟩

/-- A frame with two columns that both normalize to `titulo`. -/
def dupHeaderDf : Df := ⟨1, [("Título", ["a"]), ("titulo", ["b"])]⟩

/-- A list-view row whose `aluno` is "abc" and whose other searched fields
are empty or null. -/
def searchCexRow : ListRow :=
  ⟨"id1", some "abc", none, none, some "xyz", none, none, 0, "t"⟩

/-- Scenario record: `aluno="Ana"`, `painel=5`. -/
def anaRec : Trabalho := ⟨"id-ana", "Ana", "", "", "", "", "", 5, "t1"⟩

/-- Scenario record: `aluno="Bea"`, `painel=2`. -/
def beaRec : Trabalho := ⟨"id-bea", "Bea", "", "", "", "", "", 2, "t2"⟩

/-- A stored record used to exercise update/delete/insert at a point. -/
def wOld : Trabalho := ⟨"a", "velho", "o0", "a0", "t0", "x1", "x2", 1, "c0"⟩

/-- A second stored record with a different id. -/
def wOther : Trabalho := ⟨"b", "outro", "o1", "a1", "t1", "y1", "y2", 3, "c1"⟩

/-- An update payload targeting `wOld`'s id with fresh field values. -/
def wRow : Trabalho := ⟨"a", "novo", "o9", "a9", "t9", "z1", "z2", 7, "ignorado"⟩

/-- The head of `dropWhile p l`, when it exists, falsifies `p`. -/
theorem dropWhile_head?_false {α : Type} (p : α → Bool) (l : List α) {a : α}
    (h : (l.dropWhile p).head? = some a) : p a = false := by
  have hm := List.head?_dropWhile_not p l
  rw [h] at hm
  exact hm

/-- C1: the code keeps the gate closed when no admin secret is configured.
With `ADMIN_PASS = ""`, `is_admin` is false for every typed password, so
only the public "Lista & QR" tab is rendered — the create/import/export
affordances are not exposed, contradicting the claimed open access. -/
theorem c1_gate_closed_without_secret :
    (∀ typed : String, is_admin "" typed = false) ∧
    visibleTabs "" "qualquer" = ["Lista & QR"] := by
  constructor
  · intro typed
    simp [is_admin]
  · decide

/-- C2: a non-numeric `painel` cell makes the import loop raise.
`pd.to_numeric("abc", errors="coerce")` yields `NaN` and the surrounding
`int()` raises `ValueError`, so the batch aborts: of three rows with the
malformed one second, only the first is inserted and counted, while a
genuinely missing (`NaN`) cell does default to 0. -/
theorem c2_nonnumeric_painel_aborts_import :
    importPainel (Cell.str "abc") =
      Except.error "cannot convert float NaN to integer" ∧
    importPainel Cell.na = Except.ok 0 ∧
    runImport [impRowA, impRowB, impRowC] [] 0 = ([importedRecA], 1, false) := by
  refine ⟨rfl, rfl, by decide⟩

/-- C3: `build_detail_url` strips every trailing slash of the base and
appends `/?id=<id>`: both spec examples hold, and for every base and id
the base splits as the stripped prefix plus a run of slashes, the stripped
prefix does not end in a slash, and the produced URL is that prefix
followed by `/?id=` and the id. -/
theorem c3_build_detail_url_spec :
    build_detail_url "https://x/" "abc" = "https://x/?id=abc" ∧
    build_detail_url "https://x" "abc" = "https://x/?id=abc" ∧
    ∀ base rid : String, ∃ k : Nat,
      base.data = (rstripSlashes base).data ++ List.replicate k '/' ∧
      (rstripSlashes base).data.getLast? ≠ some '/' ∧
      (build_detail_url base rid).data =
        (rstripSlashes base).data ++ "/?id=".data ++ rid.data := by
  refine ⟨by decide, by decide, fun base rid => ?_⟩
  refine ⟨(base.data.reverse.takeWhile (fun c => c == '/')).length, ?_, ?_, ?_⟩
  · have h0 : base.data =
        (List.takeWhile (fun c => c == '/') base.data.reverse ++
          List.dropWhile (fun c => c == '/') base.data.reverse).reverse := by
      rw [List.takeWhile_append_dropWhile, List.reverse_reverse]
    rw [List.reverse_append] at h0
    rw [h0]
    show _ ++ _ = _ ++ _
    congr 1
    rw [List.eq_replicate_iff]
    refine ⟨by simp, ?_⟩
    intro b hb
    rw [List.mem_reverse] at hb
    have hall :=
      List.all_eq_true.mp
        (List.all_takeWhile (p := fun c => c == '/') (l := base.data.reverse)) b hb
    exact eq_of_beq hall
  · intro hc
    have hc' : (List.dropWhile (fun c => c == '/') base.data.reverse).head? = some '/' := by
      rw [← List.getLast?_reverse]
      exact hc
    have := dropWhile_head?_false _ _ hc'
    simp at this
  · simp [build_detail_url]

/-- C4: updating through a record's id rewrites exactly the seven mutable
columns at every position holding that id, keeps `id` and `created_at`
there, and leaves rows with other ids untouched; the table keeps its
length. -/
theorem c4_update_frame (row : Trabalho) (db : DB) (i : Nat) (t : Trabalho)
    (h : db[i]? = some t) :
    (update_trabalho row db).length = db.length ∧
    ∃ t', (update_trabalho row db)[i]? = some t' ∧
      t'.id = t.id ∧ t'.created_at = t.created_at ∧
      (t.id = row.id →
        t'.aluno = row.aluno ∧ t'.orientador = row.orientador ∧
        t'.areas = row.areas ∧ t'.titulo = row.titulo ∧
        t'.avaliador1 = row.avaliador1 ∧ t'.avaliador2 = row.avaliador2 ∧
        t'.painel = row.painel) ∧
      (t.id ≠ row.id → t' = t) := by
  refine ⟨by simp [update_trabalho], ?_⟩
  have hg : (update_trabalho row db)[i]? =
      some (if t.id == row.id then
        { t with
          aluno := row.aluno, orientador := row.orientador, areas := row.areas,
          titulo := row.titulo, avaliador1 := row.avaliador1,
          avaliador2 := row.avaliador2, painel := row.painel }
      else t) := by
    rw [update_trabalho, List.getElem?_map, h]
    rfl
  refine ⟨_, hg, ?_, ?_, ?_, ?_⟩
  · by_cases hid : t.id = row.id <;> simp [hid]
  · by_cases hid : t.id = row.id <;> simp [hid]
  · intro hid
    simp [hid]
  · intro hid
    simp [hid]

/-- C4 witness: the frame property evaluated on a two-row table at the
row matching the update's id. -/
theorem c4_update_frame_witness :
    [wOld, wOther][0]? = some wOld ∧
    ((update_trabalho wRow [wOld, wOther]).length = [wOld, wOther].length ∧
     ∃ t', (update_trabalho wRow [wOld, wOther])[0]? = some t' ∧
       t'.id = wOld.id ∧ t'.created_at = wOld.created_at ∧
       (wOld.id = wRow.id →
         t'.aluno = wRow.aluno ∧ t'.orientador = wRow.orientador ∧
         t'.areas = wRow.areas ∧ t'.titulo = wRow.titulo ∧
         t'.avaliador1 = wRow.avaliador1 ∧ t'.avaliador2 = wRow.avaliador2 ∧
         t'.painel = wRow.painel) ∧
       (wOld.id ≠ wRow.id → t' = wOld)) :=
  ⟨by decide, c4_update_frame wRow [wOld, wOther] 0 wOld (by decide)⟩

/-- C5: inserting a record whose id is fresh succeeds and a subsequent
lookup of that id returns the record, equal in every field. -/
theorem c5_insert_then_get (db : DB) (row : Trabalho)
    (h : ∀ t ∈ db, t.id ≠ row.id) :
    ∃ db', insert_trabalho row db = Except.ok db' ∧
      get_trabalho_by_id row.id db' = some row := by
  have hany : db.any (fun t => t.id == row.id) = false := by
    rw [List.any_eq_false]
    intro t ht
    simpa using h t ht
  refine ⟨db ++ [row], ?_, ?_⟩
  · simp [insert_trabalho, hany]
  · rw [get_trabalho_by_id, List.find?_append]
    have hnone : db.find? (fun t => t.id == row.id) = none := by
      rw [List.find?_eq_none]
      intro t ht
      simpa using h t ht
    rw [hnone]
    simp [List.find?]

/-- C5 witness: insert/get round-trip on a one-row table and a fresh id. -/
theorem c5_insert_then_get_witness :
    (∀ t ∈ [wOther], t.id ≠ wOld.id) ∧
    ∃ db', insert_trabalho wOld [wOther] = Except.ok db' ∧
      get_trabalho_by_id wOld.id db' = some wOld :=
  ⟨by decide, c5_insert_then_get [wOther] wOld (by decide)⟩

/-- C9: deleting an id empties every lookup of it: `get` after `delete`
is absent, deleting an id no row carries is a no-op, and rows with other
ids survive the delete. -/
theorem c9_delete_then_get (db : DB) (id_ : String) :
    get_trabalho_by_id id_ (delete_trabalho id_ db) = none ∧
    ((∀ t ∈ db, t.id ≠ id_) → delete_trabalho id_ db = db) ∧
    (∀ t ∈ db, t.id ≠ id_ → t ∈ delete_trabalho id_ db) := by
  refine ⟨?_, ?_, ?_⟩
  · rw [get_trabalho_by_id, List.find?_eq_none]
    intro t ht
    have := (List.mem_filter.mp ht).2
    simpa using this
  · intro h
    rw [delete_trabalho, List.filter_eq_self]
    intro t ht
    simpa using h t ht
  · intro t ht hne
    rw [delete_trabalho, List.mem_filter]
    exact ⟨ht, by simpa using hne⟩

/-- C9 witness: the delete properties evaluated on a one-row table, both
for the stored id and for an absent one. -/
theorem c9_delete_then_get_witness :
    get_trabalho_by_id "zzz" (delete_trabalho "zzz" [wOther]) = none ∧
    delete_trabalho "zzz" [wOther] = [wOther] ∧
    wOther ∈ delete_trabalho "zzz" [wOther] :=
  ⟨(c9_delete_then_get [wOther] "zzz").1,
   (c9_delete_then_get [wOther] "zzz").2.1 (by decide),
   (c9_delete_then_get [wOther] "zzz").2.2 wOther (by decide) (by decide)⟩

/-- Code-point comparison is total. -/
theorem lexLe_total : ∀ p q : List Char, lexLe p q = true ∨ lexLe q p = true
  | [], _ => Or.inl rfl
  | _ :: _, [] => Or.inr rfl
  | a :: as, b :: bs => by
    rcases Nat.lt_trichotomy a.toNat b.toNat with h | h | h
    · left
      rw [lexLe, if_pos h]
    · have h1 : ¬ a.toNat < b.toNat := by omega
      have h2 : ¬ b.toNat < a.toNat := by omega
      rcases lexLe_total as bs with ih | ih
      · left
        rw [lexLe, if_neg h1, if_neg h2]
        exact ih
      · right
        rw [lexLe, if_neg h2, if_neg h1]
        exact ih
    · right
      rw [lexLe, if_pos h]

/-- Code-point comparison is transitive. -/
theorem lexLe_trans : ∀ p q r : List Char,
    lexLe p q = true → lexLe q r = true → lexLe p r = true
  | [], _, _, _, _ => rfl
  | _ :: _, [], _, h, _ => by simp [lexLe] at h
  | _ :: _, _ :: _, [], _, h2 => by simp [lexLe] at h2
  | a :: as, b :: bs, c :: cs, h1, h2 => by
    rw [lexLe] at h1 h2 ⊢
    by_cases hxy : a.toNat < b.toNat
    · by_cases hyz : b.toNat < c.toNat
      · rw [if_pos (by omega)]
      · rw [if_neg hyz] at h2
        by_cases hzy : c.toNat < b.toNat
        · rw [if_pos hzy] at h2
          exact absurd h2 (by simp)
        · rw [if_pos (by omega)]
    · rw [if_neg hxy] at h1
      by_cases hyx : b.toNat < a.toNat
      · rw [if_pos hyx] at h1
        exact absurd h1 (by simp)
      · rw [if_neg hyx] at h1
        by_cases hyz : b.toNat < c.toNat
        · rw [if_pos (by omega)]
        · rw [if_neg hyz] at h2
          by_cases hzy : c.toNat < b.toNat
          · rw [if_pos hzy] at h2
            exact absurd h2 (by simp)
          · rw [if_neg hzy] at h2
            rw [if_neg (by omega), if_neg (by omega)]
            exact lexLe_trans as bs cs h1 h2

instance : IsTotal Trabalho trabRel :=
  ⟨fun a b => by
    unfold trabRel trabLe
    rcases lt_trichotomy a.painel b.painel with h | h | h
    · left
      rw [if_pos h]
    · rcases lexLe_total a.aluno.data b.aluno.data with hl | hl
      · left
        rw [if_neg (by omega), if_neg (by omega)]
        exact hl
      · right
        rw [if_neg (by omega), if_neg (by omega)]
        exact hl
    · right
      rw [if_pos h]⟩

instance : IsTrans Trabalho trabRel :=
  ⟨fun a b c h1 h2 => by
    unfold trabRel trabLe at h1 h2 ⊢
    by_cases hab : a.painel < b.painel
    · by_cases hbc : b.painel < c.painel
      · rw [if_pos (by omega)]
      · rw [if_neg hbc] at h2
        by_cases hcb : c.painel < b.painel
        · rw [if_pos hcb] at h2
          exact absurd h2 (by simp)
        · rw [if_pos (by omega)]
    · rw [if_neg hab] at h1
      by_cases hba : b.painel < a.painel
      · rw [if_pos hba] at h1
        exact absurd h1 (by simp)
      · rw [if_neg hba] at h1
        by_cases hbc : b.painel < c.painel
        · rw [if_pos (by omega)]
        · rw [if_neg hbc] at h2
          by_cases hcb : c.painel < b.painel
          · rw [if_pos hcb] at h2
            exact absurd h2 (by simp)
          · rw [if_neg hcb] at h2
            rw [if_neg (by omega), if_neg (by omega)]
            exact lexLe_trans _ _ _ h1 h2⟩

/-- C6: `list_trabalhos` returns exactly the stored records (a permutation
of the table, whatever the insertion order) sorted by `painel` then
`aluno`, both ascending; in particular, with Ana on panel 5 inserted
before Bea on panel 2, the listing puts Bea first. -/
theorem c6_list_sorted (db : DB) :
    (list_trabalhos db).Perm db ∧
    List.Sorted trabRel (list_trabalhos db) ∧
    list_trabalhos [anaRec, beaRec] = [beaRec, anaRec] :=
  ⟨List.perm_insertionSort trabRel db,
   List.sorted_insertionSort trabRel db,
   by decide⟩

/-- Packing a number below the surrogate range into a `Char` round-trips through `toNat`. -/
theorem toNat_ofNat_of_lt {n : Nat} (h : n < 55296) : (Char.ofNat n).toNat = n := by
  have hv : n.isValidChar := Or.inl h
  rw [Char.ofNat, dif_pos hv]
  rfl

/-- Lowercasing never makes a character whitespace nor stops it being so. -/
theorem isPyWs_pyLower (c : Char) : isPyWs (pyLower c) = isPyWs c := by
  unfold pyLower
  split
  · rename_i h
    have ht : (Char.ofNat (c.toNat + 32)).toNat = c.toNat + 32 :=
      toNat_ofNat_of_lt (by omega)
    unfold isPyWs
    rw [ht]
    have e1 : (c.toNat + 32 == 32) = false := by
      simp only [beq_eq_false_iff_ne, ne_eq]
      omega
    have e2 : (c.toNat == 32) = false := by
      simp only [beq_eq_false_iff_ne, ne_eq]
      omega
    have e3 : decide (c.toNat + 32 ≤ 13) = false := by
      simp only [decide_eq_false_iff_not]
      omega
    have e4 : decide (c.toNat ≤ 13) = false := by
      simp only [decide_eq_false_iff_not]
      omega
    rw [e1, e2, e3, e4]
    simp
  · split
    · rename_i h
      have ht : (Char.ofNat (c.toNat + 32)).toNat = c.toNat + 32 :=
        toNat_ofNat_of_lt (by omega)
      unfold isPyWs
      rw [ht]
      have e1 : (c.toNat + 32 == 32) = false := by
        simp only [beq_eq_false_iff_ne, ne_eq]
        omega
      have e2 : (c.toNat == 32) = false := by
        simp only [beq_eq_false_iff_ne, ne_eq]
        omega
      have e3 : decide (c.toNat + 32 ≤ 13) = false := by
        simp only [decide_eq_false_iff_not]
        omega
      have e4 : decide (c.toNat ≤ 13) = false := by
        simp only [decide_eq_false_iff_not]
        omega
      rw [e1, e2, e3, e4]
      simp
    · rfl

/-- Dropping by a predicate is the identity when the head already falsifies the
predicate. -/
theorem dropWhile_eq_self_of_head {α : Type} (p : α → Bool) (l : List α)
    (h : ∀ a ∈ l.head?, p a = false) : l.dropWhile p = l := by
  cases l with
  | nil => rfl
  | cons a t =>
    have ha := h a rfl
    exact List.dropWhile_cons_of_neg (by simp [ha])

/-- Stripping is the identity on a list whose two ends are not whitespace. -/
theorem stripChars_eq_self (l : List Char)
    (hh : ∀ a ∈ l.head?, isPyWs a = false)
    (hl : ∀ a ∈ l.getLast?, isPyWs a = false) : stripChars l = l := by
  unfold stripChars
  rw [dropWhile_eq_self_of_head _ _ hh]
  rw [dropWhile_eq_self_of_head _ _ (by simpa [List.head?_reverse] using hl)]
  exact l.reverse_reverse

/-- Normalizing any string that lowercases onto `t` (for `t` not
starting or ending in whitespace) computes the dictionary lookup of `t`. -/
theorem normalize_header_of_map_lower (s t : String)
    (h : s.data.map pyLower = t.data)
    (ht1 : t.data.head?.all (fun a => !isPyWs a) = true)
    (ht2 : t.data.getLast?.all (fun a => !isPyWs a) = true) :
    normalize_header s = (headerMapping.lookup t).getD t := by
  have hstrip : stripChars s.data = s.data := by
    apply stripChars_eq_self
    · intro a ha
      rw [Option.mem_def] at ha
      have hth : t.data.head? = some (pyLower a) := by
        rw [← h, List.head?_map, ha]
        rfl
      rw [hth] at ht1
      simp only [Option.all, Bool.not_eq_true'] at ht1
      rw [← isPyWs_pyLower]
      exact ht1
    · intro a ha
      rw [Option.mem_def] at ha
      have htl : t.data.getLast? = some (pyLower a) := by
        rw [← h, List.getLast?_map, ha]
        rfl
      rw [htl] at ht2
      simp only [Option.all, Bool.not_eq_true'] at ht2
      rw [← isPyWs_pyLower]
      exact ht2
  have hlow : pyLowerStr (pyStrip s) = t := by
    show (⟨(stripChars s.data).map pyLower⟩ : String) = t
    rw [hstrip, h]
  simp only [normalize_header]
  rw [hlow]

/-- C7: header normalization fixes each of the seven canonical names, maps
the spec's example synonyms (and their accent-stripped variants) to their
canonical names, and does so for every casing: any string that lowercases
character-wise onto a dictionary key normalizes to that key's canonical
name. -/
theorem c7_normalize_header :
    (∀ c ∈ requiredCols, normalize_header c = c) ∧
    normalize_header "Título" = "titulo" ∧
    normalize_header "Nº do Painel" = "painel" ∧
    normalize_header "Áreas" = "areas" ∧
    normalize_header "no do painel" = "painel" ∧
    normalize_header "n do painel" = "painel" ∧
    (∀ k v : String, (k, v) ∈ headerMapping →
      ∀ s : String, s.data.map pyLower = k.data → normalize_header s = v) := by
  refine ⟨by decide, by decide, by decide, by decide, by decide, by decide, ?_⟩
  have hall : ∀ kv ∈ headerMapping,
      kv.1.data.head?.all (fun a => !isPyWs a) = true ∧
      kv.1.data.getLast?.all (fun a => !isPyWs a) = true ∧
      (headerMapping.lookup kv.1).getD kv.1 = kv.2 := by decide
  intro k v hkv s h
  obtain ⟨h1, h2, h3⟩ := hall (k, v) hkv
  exact (normalize_header_of_map_lower s k h h1 h2).trans h3

/-- C7 witness: the canonical fixed point, the synonym lookup and the
case-insensitivity instantiated at "aluno" and at the fully upper-cased
"TÍTULO". -/
theorem c7_normalize_header_witness :
    "aluno" ∈ requiredCols ∧ normalize_header "aluno" = "aluno" ∧
    ("título", "titulo") ∈ headerMapping ∧
    "TÍTULO".data.map pyLower = "título".data ∧
    normalize_header "TÍTULO" = "titulo" :=
  ⟨by decide, c7_normalize_header.1 "aluno" (by decide), by decide, by decide,
   c7_normalize_header.2.2.2.2.2.2 "título" "titulo" (by decide) "TÍTULO" (by decide)⟩

/-- The column-synthesis fold appends, in order, one empty column for each
name of a duplicate-free name list that the frame does not already carry. -/
theorem addMissing_foldl (n : Nat) :
    ∀ (names : List String) (acc : List (String × List String)), names.Nodup →
      names.foldl
        (fun acc col =>
          if acc.any (fun c => c.1 == col) then acc
          else acc ++ [(col, List.replicate n "")]) acc =
      acc ++
        (names.filter (fun col => !(acc.any (fun c => c.1 == col)))).map
          (fun col => (col, List.replicate n ""))
  | [], acc, _ => by simp
  | col :: rest, acc, hnd => by
    have hnotmem : col ∉ rest := (List.nodup_cons.mp hnd).1
    have hrest : rest.Nodup := (List.nodup_cons.mp hnd).2
    rw [List.foldl_cons]
    by_cases hany : acc.any (fun c => c.1 == col) = true
    · rw [if_pos hany, addMissing_foldl n rest acc hrest, List.filter_cons]
      rw [hany]
      simp
    · rw [if_neg hany, addMissing_foldl n rest _ hrest]
      have hanyf : acc.any (fun c => c.1 == col) = false :=
        Bool.not_eq_true _ ▸ eq_false_of_ne_true hany
      have hfc :
          rest.filter (fun c =>
            !((acc ++ [(col, List.replicate n "")]).any (fun x => x.1 == c))) =
          rest.filter (fun c => !(acc.any (fun x => x.1 == c))) := by
        apply List.filter_congr
        intro a ha
        have hne : col ≠ a := fun hEq => hnotmem (hEq ▸ ha)
        simp [List.any_append, hne]
      rw [hfc, List.filter_cons, hanyf]
      simp [List.append_assoc]

/-- A filter keeping at most one element is the singleton (or empty) list
of the first hit. -/
theorem filter_of_countP_le_one {α : Type} (p : α → Bool) :
    ∀ l : List α, l.countP p ≤ 1 → l.filter p = (l.find? p).toList
  | [], _ => rfl
  | a :: l, h => by
    by_cases ha : p a = true
    · rw [List.filter_cons_of_pos ha, List.find?_cons_of_pos _ ha]
      have hc : l.countP p = 0 := by
        rw [List.countP_cons_of_pos _ _ ha] at h
        omega
      have hfilter : l.filter p = [] := by
        have := List.countP_eq_length_filter (p := p) l
        rw [hc] at this
        exact List.length_eq_zero.mp this.symm
      rw [hfilter]
      rfl
    · rw [List.filter_cons_of_neg ha, List.find?_cons_of_neg _ ha]
      apply filter_of_countP_le_one p l
      rw [List.countP_cons_of_neg _ _ ha] at h
      exact h

/-- Filtering a list that does not contain `a` with a predicate requiring
equality to `a` yields nothing. -/
theorem filter_beq_of_not_mem {p : String → Bool} (a : String) :
    ∀ l : List String, a ∉ l → l.filter (fun x => x == a && p x) = []
  | [], _ => rfl
  | b :: l, h => by
    have hba : (b == a) = false := by
      simp only [beq_eq_false_iff_ne, ne_eq]
      intro hEq
      exact (List.ne_and_not_mem_of_not_mem_cons h).1 hEq.symm
    rw [List.filter_cons_of_neg (by simp [hba])]
    exact filter_beq_of_not_mem a l (List.ne_and_not_mem_of_not_mem_cons h).2

/-- On a duplicate-free list containing `a`, filtering by equality-to-`a`
conjoined with `p` keeps exactly `a` when `p a` holds. -/
theorem filter_beq_of_nodup {p : String → Bool} :
    ∀ l : List String, l.Nodup → ∀ a ∈ l,
      l.filter (fun x => x == a && p x) = if p a then [a] else []
  | [], _, a, ha => absurd ha (List.not_mem_nil a)
  | b :: l, hnd, a, ha => by
    rcases List.mem_cons.mp ha with rfl | ha'
    · have hnot : a ∉ l := (List.nodup_cons.mp hnd).1
      rw [List.filter_cons]
      have hcond : (a == a && p a) = p a := by simp
      rw [hcond, filter_beq_of_not_mem a l hnot]
    · have hba : (b == a && p b) = false := by
        have : (b == a) = false := by
          simp only [beq_eq_false_iff_ne, ne_eq]
          intro hEq
          exact (List.nodup_cons.mp hnd).1 (hEq ▸ ha')
        simp [this]
      rw [List.filter_cons_of_neg (by simp [hba])]
      exact filter_beq_of_nodup l (List.nodup_cons.mp hnd).2 a ha'

/-- A `flatMap` whose fibers are singletons is a `map`. -/
theorem flatMap_eq_map {α β : Type} (f : α → List β) (g : α → β) :
    ∀ l : List α, (∀ a ∈ l, f a = [g a]) → l.flatMap f = l.map g
  | [], _ => rfl
  | a :: l, h => by
    rw [List.flatMap_cons, List.map_cons, h a (List.mem_cons_self a l),
      flatMap_eq_map f g l (fun b hb => h b (List.mem_cons_of_mem a hb))]
    rfl

/-- C8 (amended): on a frame in which at most one column normalizes onto
each canonical name, `ensure_columns` keeps the row count and returns
exactly the seven canonical columns in order — a present canonical column
keeps its values, an absent one is synthesized as empty text, and every
non-canonical column is dropped. -/
theorem c8_ensure_columns (df : Df)
    (h : ∀ name ∈ requiredCols,
      (normalizeDfCols df).countP (fun c => c.1 == name) ≤ 1) :
    (ensure_columns df).nrows = df.nrows ∧
    (ensure_columns df).cols = requiredCols.map (fun name =>
      match (normalizeDfCols df).find? (fun c => c.1 == name) with
      | some c => (name, c.2)
      | none => (name, List.replicate df.nrows "")) := by
  refine ⟨rfl, ?_⟩
  show requiredCols.flatMap
      (fun name =>
        (addMissing df.nrows (normalizeDfCols df)).filter (fun c => c.1 == name)) = _
  have hAdd : addMissing df.nrows (normalizeDfCols df) =
      normalizeDfCols df ++
        (requiredCols.filter
          (fun col => !((normalizeDfCols df).any (fun c => c.1 == col)))).map
          (fun col => (col, List.replicate df.nrows "")) :=
    addMissing_foldl df.nrows requiredCols (normalizeDfCols df) (by decide)
  rw [hAdd]
  apply flatMap_eq_map
  intro name hname
  rw [List.filter_append, List.filter_map]
  have hcomp :
      (requiredCols.filter
        (fun col => !((normalizeDfCols df).any (fun c => c.1 == col)))).filter
        ((fun c => c.1 == name) ∘ fun col => (col, List.replicate df.nrows "")) =
      requiredCols.filter
        (fun x => x == name && !((normalizeDfCols df).any (fun c => c.1 == x))) := by
    rw [List.filter_filter]
    exact List.filter_congr (fun a _ => rfl)
  rw [hcomp]
  rw [filter_beq_of_nodup requiredCols (by decide) name hname]
  by_cases hc : (normalizeDfCols df).any (fun c => c.1 == name) = true
  · obtain ⟨x, hx⟩ :
        ∃ x, (normalizeDfCols df).find? (fun c => c.1 == name) = some x := by
      rcases List.any_eq_true.mp hc with ⟨x, hxmem, hxp⟩
      cases hfx : (normalizeDfCols df).find? (fun c => c.1 == name) with
      | none => exact absurd hxp (by simpa using List.find?_eq_none.mp hfx x hxmem)
      | some y => exact ⟨y, rfl⟩
    have hfilter : (normalizeDfCols df).filter (fun c => c.1 == name) = [x] := by
      rw [filter_of_countP_le_one _ _ (h name hname), hx]
      rfl
    have hx1 : x.1 = name := by
      have := List.find?_some hx
      simpa using this
    rw [hfilter, hx, if_neg (by simp [hc]), List.map_nil, List.append_nil]
    cases x with
    | mk x1 x2 =>
      simp only at hx1
      rw [hx1]
  · have hcf : (normalizeDfCols df).any (fun c => c.1 == name) = false :=
      Bool.not_eq_true _ ▸ eq_false_of_ne_true hc
    have hfind : (normalizeDfCols df).find? (fun c => c.1 == name) = none := by
      rw [List.find?_eq_none]
      intro x hxmem
      simpa using List.any_eq_false.mp hcf x hxmem
    have hfilter : (normalizeDfCols df).filter (fun c => c.1 == name) = [] := by
      rw [List.filter_eq_nil_iff]
      intro x hxmem
      simpa using List.any_eq_false.mp hcf x hxmem
    rw [hfilter, hfind, if_pos (by simp [hcf]), List.map_cons, List.map_nil]
    rfl

/-- C8 counterexample: a frame whose two headers "Título" and "titulo"
both normalize to `titulo` makes `ensure_columns` return eight columns —
the claimed "exactly the seven canonical columns" fails. -/
theorem c8_duplicate_headers_cex :
    (ensure_columns dupHeaderDf).cols.map Prod.fst ≠ requiredCols ∧
    (ensure_columns dupHeaderDf).cols.length = 8 := by
  constructor
  · decide
  · decide

/-- C8 witness: the amended characterization evaluated on a frame with one
recognized column, one unknown column and one missing canonical column. -/
theorem c8_ensure_columns_witness :
    (∀ name ∈ requiredCols,
      (normalizeDfCols ⟨1, [("Título", ["t"]), ("lixo", ["x"])]⟩).countP
        (fun c => c.1 == name) ≤ 1) ∧
    ((ensure_columns ⟨1, [("Título", ["t"]), ("lixo", ["x"])]⟩).nrows = 1 ∧
      (ensure_columns ⟨1, [("Título", ["t"]), ("lixo", ["x"])]⟩).cols =
        requiredCols.map (fun name =>
          match (normalizeDfCols ⟨1, [("Título", ["t"]), ("lixo", ["x"])]⟩).find?
              (fun c => c.1 == name) with
          | some c => (name, c.2)
          | none => (name, List.replicate 1 ""))) :=
  ⟨by decide, c8_ensure_columns ⟨1, [("Título", ["t"]), ("lixo", ["x"])]⟩ (by decide)⟩

/-- On a metacharacter-free pattern, anchored regex matching is exact
case-folded prefix comparison. -/
theorem reMatchHere_eq_occursAt :
    ∀ p : List Char, (∀ c ∈ p, isRegexMeta c = false) →
      ∀ t : List Char, reMatchHere p t = occursAt (p.map pyLower) (t.map pyLower)
  | [], _, _ => by
    rw [reMatchHere.eq_def]
    cases ‹List Char› <;> rfl
  | a :: as, hp, [] => rfl
  | a :: as, hp, c :: cs => by
    have ha : (a == '.') = false := by
      have hma := hp a (List.mem_cons_self a as)
      simp only [beq_eq_false_iff_ne, ne_eq]
      intro hEq
      rw [hEq] at hma
      simp [isRegexMeta] at hma
    rw [reMatchHere, List.map_cons, List.map_cons, occursAt, reAtom, ha]
    rw [reMatchHere_eq_occursAt as (fun c hc => hp c (List.mem_cons_of_mem a hc)) cs]
    simp

/-- On a metacharacter-free pattern, `re.search` is exactly case-folded
substring search. -/
theorem reSearch_eq_occursIn (p : List Char)
    (hp : ∀ c ∈ p, isRegexMeta c = false) :
    ∀ t : List Char, reSearch p t = occursIn (p.map pyLower) (t.map pyLower)
  | [] => by
    rw [reSearch, occursIn.eq_def]
    rw [reMatchHere_eq_occursAt p hp []]
    rfl
  | c :: cs => by
    rw [reSearch, List.map_cons, occursIn,
      reMatchHere_eq_occursAt p hp (c :: cs), List.map_cons,
      reSearch_eq_occursIn p hp cs]

/-- C10 (amended): for a non-empty query free of regex metacharacters the
list tab displays exactly the rows in which the query occurs as a
case-insensitive substring of `aluno`, `titulo`, `orientador` or `areas`
(a null field never matches), and an empty query leaves the list
unfiltered.  In general the query is a regular-expression pattern, not a
literal substring. -/
theorem c10_search_filter (q : String) (rows : List ListRow)
    (hq : q ≠ "") (hlit : ∀ c ∈ q.data, isRegexMeta c = false) :
    applySearch "" rows = rows ∧
    applySearch q rows = rows.filter (specRowMatch q) := by
  refine ⟨by simp [applySearch], ?_⟩
  rw [applySearch, if_neg hq]
  apply List.filter_congr
  intro r _
  have hf : ∀ x : Option String, strContainsCI q x = ciSubstrOpt q x := by
    intro x
    cases x with
    | none => rfl
    | some s =>
      show reSearch q.data s.data = ciSubstr q s
      rw [ciSubstr]
      exact reSearch_eq_occursIn q.data hlit s.data
  rw [rowMask, specRowMatch, hf, hf, hf, hf]

/-- C10 counterexample: the query "." (a regex wildcard) keeps a row whose
`aluno` is "abc" even though "." never occurs in any of its fields as a
substring — the displayed list is not the claimed substring filter. -/
theorem c10_regex_dot_cex :
    applySearch "." [searchCexRow] = [searchCexRow] ∧
    specRowMatch "." searchCexRow = false := by
  constructor
  · decide
  · decide

/-- C10 witness: the amended filter equivalence evaluated on the literal
query "bc" over a one-row list. -/
theorem c10_search_filter_witness :
    ("bc" ≠ "" ∧ (∀ c ∈ "bc".data, isRegexMeta c = false)) ∧
    (applySearch "" [searchCexRow] = [searchCexRow] ∧
      applySearch "bc" [searchCexRow] = [searchCexRow].filter (specRowMatch "bc")) :=
  ⟨⟨by decide, by decide⟩,
   c10_search_filter "bc" [searchCexRow] (by decide) (by decide)⟩

end SictQr
